import Mathlib

/-
Verification of the auto-trading-bot decision-to-execution pipeline.

Shallow embedding of the Python sources:
  src/portfolio/manager.py   (PortfolioManager: record_buy, record_sell, take_snapshot)
  src/portfolio/risk.py      (RiskManager: pre_trade_check and its sub-checks)
  src/executor/trade_executor.py (TradeExecutor.execute_signal, paper path)
  src/notifications/twilio_sms.py (TwilioSMS.wait_for_response)
  src/db/models.py           (Database: holdings/trades/state key-value operations)

Modelling conventions:
  - Python floats are modelled as rationals; Python ints as Lean Int.
  - datetime values are modelled as integer seconds since an epoch.
    datetime.date() is floor-division by 86400; timedelta.days likewise
    (Python floor semantics, hence Int.fdiv).
  - Numeric interpolations inside human-readable log/reason strings are
    elided: the strings keep their fixed prefixes, which is what the
    claims depend on.
  - SQLAlchemy rows become fields of explicit state records; every
    Database call in the Python code commits immediately, so each call
    is one state update here.
-/

/-- Seconds in one day, used to model datetime.date and timedelta.days. -/
def secondsPerDay : Int := 86400

/-- Calendar date of a timestamp, as in trade.executed_at.date(). -/
def dateOf (t : Int) : Int := t.fdiv secondsPerDay

/-- Midnight of the day containing the timestamp: models
datetime.utcnow().replace(hour=0, minute=0, second=0, microsecond=0). -/
def todayStart (now : Int) : Int := dateOf now * secondsPerDay

/-- Trading configuration (src/config.py, TradingConfig). -/
structure TradingConfig where
  initial_budget : ℚ
  max_position_pct : ℚ
  max_holdings : Int
  stop_loss_pct : ℚ
  take_profit_pct : ℚ
  approval_timeout_minutes : Int
  max_drawdown_pct : ℚ
  max_daily_trades : Int
deriving Repr, DecidableEq

/-- Maximum value per position in dollars (config.py, property max_position_value). -/
def TradingConfig.max_position_value (c : TradingConfig) : ℚ :=
  c.initial_budget * (c.max_position_pct / 100)

/-- A holdings row (db/models.py, class Holding).  The opportunistically
refreshed current_price/current_value columns play no role in the claims
and are omitted. -/
structure Holding where
  symbol : String
  quantity : Int
  avg_buy_price : ℚ
  total_cost : ℚ
  stop_loss_price : ℚ
  take_profit_price : ℚ
  first_bought_at : Int
deriving Repr, DecidableEq

/-- A trades row (db/models.py, class Trade).  The id models the SQLite
autoincrement primary key (first row gets id 1). -/
structure Trade where
  id : Int
  symbol : String
  action : String
  quantity : Int
  price : ℚ
  total_value : ℚ
  buy_price : Option ℚ
  profit_loss : Option ℚ
  profit_loss_pct : Option ℚ
  hold_days : Option Int
  executed_at : Int
deriving Repr, DecidableEq

/-- Database.get_holding: first row whose symbol matches. -/
def get_holding (hs : List Holding) (symbol : String) : Option Holding :=
  hs.find? (fun h => h.symbol == symbol)

/-- Mutation of the row found by get_holding (SQLAlchemy mutates the
fetched object in place, then commits): only the first matching row
changes. -/
def updateFirst (f : Holding → Holding) (symbol : String) : List Holding → List Holding
  | [] => []
  | h :: hs => if h.symbol == symbol then f h :: hs else h :: updateFirst f symbol hs

/-- Database.remove_holding: session.delete on the row found by
get_holding removes that single row. -/
def removeFirst (symbol : String) : List Holding → List Holding
  | [] => []
  | h :: hs => if h.symbol == symbol then hs else h :: removeFirst symbol hs

/-- Database.update_or_create_holding (db/models.py).  On an existing
row: total_shares = old quantity + quantity, total_cost = old total_cost
+ quantity * avg_price, avg_buy_price = total_cost / total_shares, and
the stop-loss / take-profit columns are overwritten with the arguments.
Otherwise a fresh row is inserted with first_bought_at = now. -/
def update_or_create_holding (hs : List Holding) (now : Int) (symbol : String)
    (quantity : Int) (avg_price stop_loss take_profit : ℚ) : List Holding :=
  match get_holding hs symbol with
  | some _ =>
      updateFirst (fun h =>
        let total_shares : Int := h.quantity + quantity
        let total_cost : ℚ := h.total_cost + (quantity : ℚ) * avg_price
        { h with
          quantity := total_shares
          avg_buy_price := total_cost / (total_shares : ℚ)
          total_cost := total_cost
          stop_loss_price := stop_loss
          take_profit_price := take_profit }) symbol hs
  | none =>
      hs ++ [{ symbol := symbol, quantity := quantity, avg_buy_price := avg_price,
               total_cost := (quantity : ℚ) * avg_price, stop_loss_price := stop_loss,
               take_profit_price := take_profit, first_bought_at := now }]

/-- In-memory cash balance plus the persisted holdings and trades tables
(PortfolioManager plus its Database). -/
structure PMState where
  cash_balance : ℚ
  holdings : List Holding
  trades : List Trade
deriving Repr, DecidableEq

/-- PortfolioManager.record_buy (manager.py): debit cash by quantity *
price, compute stop-loss and take-profit from this fill price, upsert
the holding, append one BUY trade row. -/
def record_buy (cfg : TradingConfig) (now : Int) (st : PMState)
    (symbol : String) (quantity : Int) (price : ℚ) : PMState × Trade :=
  let total_cost : ℚ := (quantity : ℚ) * price
  let cash := st.cash_balance - total_cost
  let stop_loss := price * (1 + cfg.stop_loss_pct / 100)
  let take_profit := price * (1 + cfg.take_profit_pct / 100)
  let holdings := update_or_create_holding st.holdings now symbol quantity price stop_loss take_profit
  let trade : Trade :=
    { id := (st.trades.length : Int) + 1, symbol := symbol, action := "BUY",
      quantity := quantity, price := price, total_value := total_cost,
      buy_price := none, profit_loss := none, profit_loss_pct := none,
      hold_days := none, executed_at := now }
  ({ cash_balance := cash, holdings := holdings, trades := st.trades ++ [trade] }, trade)

/-- PortfolioManager.record_sell (manager.py): credit cash by quantity *
price; read the holding for P-and-L (buy_price 0 and hold_days 0 when
absent); append one SELL trade row carrying buy_price, profit_loss,
profit_loss_pct (guarded to 0 unless buy_price > 0) and hold_days; then
delete the holding on a full sale (quantity >= holding.quantity) or
decrement quantity and recompute total_cost = quantity * avg_buy_price. -/
def record_sell (now : Int) (st : PMState)
    (symbol : String) (quantity : Int) (price : ℚ) : PMState × Trade :=
  let total_proceeds : ℚ := (quantity : ℚ) * price
  let cash := st.cash_balance + total_proceeds
  let holding? := get_holding st.holdings symbol
  let buy_price : ℚ := match holding? with
    | some h => h.avg_buy_price
    | none => 0
  let days_held : Int := match holding? with
    | some h => (now - h.first_bought_at).fdiv secondsPerDay
    | none => 0
  let profit_loss : ℚ := (price - buy_price) * (quantity : ℚ)
  let profit_loss_pct : ℚ := if buy_price > 0 then (price - buy_price) / buy_price * 100 else 0
  let trade : Trade :=
    { id := (st.trades.length : Int) + 1, symbol := symbol, action := "SELL",
      quantity := quantity, price := price, total_value := total_proceeds,
      buy_price := some buy_price, profit_loss := some profit_loss,
      profit_loss_pct := some profit_loss_pct, hold_days := some days_held,
      executed_at := now }
  let holdings := match holding? with
    | some h =>
        if h.quantity ≤ quantity then removeFirst symbol st.holdings
        else updateFirst (fun g =>
          { g with quantity := g.quantity - quantity,
                   total_cost := ((g.quantity - quantity : Int) : ℚ) * g.avg_buy_price })
          symbol st.holdings
    | none => st.holdings
  ({ cash_balance := cash, holdings := holdings, trades := st.trades ++ [trade] }, trade)

/-
Risk engine (src/portfolio/risk.py).  The persisted TradingState table
is a key/value list; Database.get_state returns the value of the first
row with the key, Database.set_state overwrites it or inserts a new row.
-/

/-- Persisted TradingState key/value rows. -/
abbrev KV := List (String × String)

/-- Database.get_state. -/
def get_state (kv : KV) (k : String) : Option String :=
  (kv.find? (fun p => p.1 == k)).map (fun p => p.2)

/-- Database.set_state: overwrite the value of the first row with the
key, or insert a new row when none exists. -/
def set_state : KV → String → String → KV
  | [], k, v => [(k, v)]
  | p :: ps, k, v => if p.1 == k then (k, v) :: ps else p :: set_state ps k v

/-- RiskManager.is_trading_paused: paused iff the stored value is the
string true; the reason falls back to a default when missing or empty
(Python reads it with the or operator, so an empty string is replaced). -/
def is_trading_paused (kv : KV) : Bool × String :=
  if get_state kv "trading_paused" == some "true" then
    (true, match get_state kv "pause_reason" with
      | some r => if r == "" then "Unknown reason" else r
      | none => "Unknown reason")
  else (false, "Trading active")

/-- RiskManager.pause_trading: persists the flag, the reason and the
pause timestamp (isoformat rendering elided), in that order. -/
def pause_trading (kv : KV) (reason : String) (now : Int) : KV :=
  set_state (set_state (set_state kv "trading_paused" "true") "pause_reason" reason)
    "paused_at" (toString now)

/-- RiskManager.resume_trading. -/
def resume_trading (kv : KV) : KV :=
  set_state (set_state kv "trading_paused" "false") "pause_reason" ""

/-- RiskManager.check_position_size. -/
def check_position_size (cfg : TradingConfig) (price : ℚ) (quantity : Int)
    (available_cash : ℚ) : Bool × String :=
  let position_value : ℚ := price * (quantity : ℚ)
  if position_value > cfg.max_position_value then
    (false, "Position exceeds max")
  else if position_value > available_cash then
    (false, "Position exceeds available cash")
  else (true, "Position size OK")

/-- RiskManager.check_holdings_limit. -/
def check_holdings_limit (cfg : TradingConfig) (current_holdings : Int) : Bool × String :=
  if current_holdings ≥ cfg.max_holdings then
    (false, "At max holdings")
  else (true, "Holdings OK")

/-- RiskManager.check_drawdown: third component is should_pause. -/
def check_drawdown (cfg : TradingConfig) (current_value peak_value : ℚ) :
    Bool × String × Bool :=
  if peak_value ≤ 0 then (true, "No peak value recorded", false)
  else
    let drawdown_pct : ℚ := (current_value - peak_value) / peak_value * 100
    if drawdown_pct ≤ cfg.max_drawdown_pct then
      (false, "Max drawdown reached", true)
    else (true, "Drawdown OK", false)

/-- RiskManager.check_daily_trades: counts trades whose executed_at is
at or after midnight of the current day and rejects when the count
reaches max_daily_trades.  Pure read: no state is written. -/
def check_daily_trades (cfg : TradingConfig) (trades : List Trade) (now : Int) :
    Bool × String :=
  let trade_count := (trades.filter (fun t => todayStart now ≤ t.executed_at)).length
  if (trade_count : Int) ≥ cfg.max_daily_trades then
    (false, "Daily trade limit reached")
  else (true, "Daily trades OK")

/-- Key used by the PDT scan: (symbol, calendar date of execution). -/
def tkey (t : Trade) : String × Int := (t.symbol, dateOf t.executed_at)

/-- Insertion into a list sorted by executed_at. -/
def insertByExec (t : Trade) : List Trade → List Trade
  | [] => [t]
  | u :: us => if t.executed_at ≤ u.executed_at then t :: u :: us else u :: insertByExec t us

/-- Sorting by executed_at: models the order_by(Trade.executed_at) of
the PDT query. -/
def sortByExec : List Trade → List Trade
  | [] => []
  | t :: ts => insertByExec t (sortByExec ts)

/-- Scan loop of RiskManager.check_pdt_rule: walk the trades in
execution order keeping the set of (symbol, date) keys seen on a BUY;
every SELL whose key is already in that set counts one day trade. -/
def dayTradesLoop : List Trade → List (String × Int) → Nat
  | [], _ => 0
  | t :: rest, buys =>
    if t.action == "BUY" then dayTradesLoop rest (tkey t :: buys)
    else if t.action == "SELL" then
      (if tkey t ∈ buys then 1 else 0) + dayTradesLoop rest buys
    else dayTradesLoop rest buys

/-- RiskManager.check_pdt_rule: trades of the last 7 calendar days
(the code widens the 5-trading-day window to 7 to cover weekends),
ordered by executed_at, scanned by dayTradesLoop; reject at 3 or more. -/
def check_pdt_rule (trades : List Trade) (now : Int) : Bool × String :=
  let window := trades.filter (fun t => now - 7 * secondsPerDay ≤ t.executed_at)
  let day_trades := dayTradesLoop (sortByExec window) []
  if day_trades ≥ 3 then (false, "PDT limit reached")
  else (true, "PDT OK")

/-- RiskManager.pre_trade_check: pause gate, drawdown (with the
pause-and-persist side effect), daily count, PDT, and for BUY the
holdings and position-size limits; the first failure short-circuits and
the messages of passing checks are joined on success.  Returns
(allowed, reason, new key/value state). -/
def pre_trade_check (cfg : TradingConfig) (kv : KV) (trades : List Trade) (now : Int)
    (action : String) (quantity : Int) (price available_cash : ℚ)
    (current_holdings : Int) (portfolio_value peak_value : ℚ) :
    Bool × String × KV :=
  let pausedR := is_trading_paused kv
  if pausedR.1 then (false, "Trading paused: " ++ pausedR.2, kv)
  else
    let ddR := check_drawdown cfg portfolio_value peak_value
    if ddR.2.2 then (false, ddR.2.1, pause_trading kv ddR.2.1 now)
    else
      let dailyR := check_daily_trades cfg trades now
      if !dailyR.1 then (false, dailyR.2, kv)
      else
        let pdtR := check_pdt_rule trades now
        if !pdtR.1 then (false, pdtR.2, kv)
        else if action == "BUY" then
          let holdR := check_holdings_limit cfg current_holdings
          if !holdR.1 then (false, holdR.2, kv)
          else
            let posR := check_position_size cfg price quantity available_cash
            if !posR.1 then (false, posR.2, kv)
            else (true, String.intercalate " | " [ddR.2.1, dailyR.2, pdtR.2, holdR.2, posR.2], kv)
        else (true, String.intercalate " | " [ddR.2.1, dailyR.2, pdtR.2], kv)

/-
Portfolio snapshots (src/portfolio/manager.py, take_snapshot).
-/

/-- A portfolio_snapshots row (db/models.py); only the columns the
snapshot logic itself computes from its inputs are kept. -/
structure PortfolioSnapshot where
  total_value : ℚ
  daily_pl : Option ℚ
  peak_value : Option ℚ
  drawdown : ℚ
  drawdown_pct : ℚ
deriving Repr, DecidableEq

/-- PortfolioManager.take_snapshot, given the immediately preceding
snapshot and the current total value.  The peak advances to
max(total_value, prev.peak_value) only when a previous snapshot exists
and its peak_value column is truthy (non-null and nonzero, Python
truthiness); otherwise the peak restarts at the current total. -/
def take_snapshot (prev : Option PortfolioSnapshot) (total_value : ℚ) :
    PortfolioSnapshot :=
  let daily_pl : Option ℚ := match prev with
    | some p => some (total_value - p.total_value)
    | none => none
  let peak : ℚ := match prev with
    | some p => match p.peak_value with
      | some pv => if pv ≠ 0 then max total_value pv else total_value
      | none => total_value
    | none => total_value
  let drawdown := total_value - peak
  let drawdown_pct : ℚ := if peak > 0 then drawdown / peak * 100 else 0
  { total_value := total_value, daily_pl := daily_pl, peak_value := some peak,
    drawdown := drawdown, drawdown_pct := drawdown_pct }

/-- The snapshot sequence obtained by running take_snapshot over a list
of successive total values, each step feeding the previous snapshot. -/
def snapshotSeqAux (prev : Option PortfolioSnapshot) : List ℚ → List PortfolioSnapshot
  | [] => []
  | v :: vs =>
    let s := take_snapshot prev v
    s :: snapshotSeqAux (some s) vs

/-- Snapshot sequence from an empty snapshot table. -/
def snapshotSeq (totals : List ℚ) : List PortfolioSnapshot :=
  snapshotSeqAux none totals

/-
Trade executor (src/executor/trade_executor.py), paper-trading path.
Exceptions are modelled by an injected fault point: each Database or
notification call that the Python code performs inside the try block can
raise, and every state change committed before the raising call
persists (each Database helper commits immediately).
-/

/-- Signal lifecycle states (db/models.py, SignalStatus). -/
inductive SignalStatus
  | PENDING | APPROVED | REJECTED | EXECUTED | EXPIRED | CANCELLED
deriving Repr, DecidableEq

/-- String stored in the status column (SignalStatus.value). -/
def SignalStatus.value : SignalStatus → String
  | .PENDING => "PENDING"
  | .APPROVED => "APPROVED"
  | .REJECTED => "REJECTED"
  | .EXECUTED => "EXECUTED"
  | .EXPIRED => "EXPIRED"
  | .CANCELLED => "CANCELLED"

/-- A signals row; the columns execute_signal reads or writes. -/
structure Signal where
  id : Int
  symbol : String
  action : String
  suggested_price : ℚ
  suggested_quantity : Int
  status : String
  trade_id : Option Int
deriving Repr, DecidableEq

/-- State touched by the executor: the portfolio ledger, the signal row
being processed, and the audit log descriptions. -/
structure ExecState where
  pm : PMState
  signal : Signal
  audit : List String
deriving Repr, DecidableEq

/-- Result dict of TradeExecutor.execute_signal. -/
structure ExecResult where
  success : Bool
  message : String
  fill_price : Option ℚ
  trade_id : Option Int
deriving Repr, DecidableEq

/-- Operations inside the executor try block that can raise: the three
Database writes of record_buy / record_sell (holding upsert or update,
trade insert, audit append), the signal status update, and the SMS
confirmation send. -/
inductive ExecFault
  | dbHolding | dbTrade | dbLog | statusUpdate | smsSend
deriving Repr, DecidableEq

/-- Exception text captured from the raising operation (str(e)). -/
def fault_text : ExecFault → String
  | .dbHolding => "holding write failed"
  | .dbTrade => "trade insert failed"
  | .dbLog => "audit log write failed"
  | .statusUpdate => "signal update failed"
  | .smsSend => "sms send failed"

/-- TradeExecutor._update_signal_status: sets the status column, sets
trade_id only when the argument is truthy (a Python if on the int), and
appends an audit row whose description carries the status and notes. -/
def update_signal_status (st : ExecState) (status : SignalStatus)
    (trade_id : Option Int) (notes : Option String) : ExecState :=
  let tid := match trade_id with
    | some t => if t ≠ 0 then some t else st.signal.trade_id
    | none => st.signal.trade_id
  { st with
    signal := { st.signal with status := status.value, trade_id := tid }
    audit := st.audit ++
      ["Signal status: " ++ status.value ++
        (match notes with | some n => " - " ++ n | none => "")] }

/-- PortfolioManager.record_buy with an injected fault.  The cash debit
happens before the database session opens, so it survives every fault;
the holding upsert commits before the trade insert, which commits before
the audit append (manager.py lines 146-181). -/
def record_buy_run (cfg : TradingConfig) (now : Int) (st : PMState)
    (symbol : String) (quantity : Int) (price : ℚ) (fault : Option ExecFault) :
    PMState × Except String Trade :=
  let total_cost : ℚ := (quantity : ℚ) * price
  let stop_loss := price * (1 + cfg.stop_loss_pct / 100)
  let take_profit := price * (1 + cfg.take_profit_pct / 100)
  let st1 := { st with cash_balance := st.cash_balance - total_cost }
  if fault = some .dbHolding then (st1, .error (fault_text .dbHolding))
  else
    let st2 := { st1 with
      holdings := update_or_create_holding st1.holdings now symbol quantity price stop_loss take_profit }
    if fault = some .dbTrade then (st2, .error (fault_text .dbTrade))
    else
      let trade : Trade :=
        { id := (st2.trades.length : Int) + 1, symbol := symbol, action := "BUY",
          quantity := quantity, price := price, total_value := total_cost,
          buy_price := none, profit_loss := none, profit_loss_pct := none,
          hold_days := none, executed_at := now }
      let st3 := { st2 with trades := st2.trades ++ [trade] }
      if fault = some .dbLog then (st3, .error (fault_text .dbLog))
      else (st3, .ok trade)

/-- PortfolioManager.record_sell with an injected fault.  The cash
credit happens before the session opens; the trade insert commits before
the holding update or removal (manager.py lines 196-236). -/
def record_sell_run (now : Int) (st : PMState)
    (symbol : String) (quantity : Int) (price : ℚ) (fault : Option ExecFault) :
    PMState × Except String Trade :=
  let total_proceeds : ℚ := (quantity : ℚ) * price
  let st1 := { st with cash_balance := st.cash_balance + total_proceeds }
  let holding? := get_holding st1.holdings symbol
  let buy_price : ℚ := match holding? with
    | some h => h.avg_buy_price
    | none => 0
  let days_held : Int := match holding? with
    | some h => (now - h.first_bought_at).fdiv secondsPerDay
    | none => 0
  let profit_loss : ℚ := (price - buy_price) * (quantity : ℚ)
  let profit_loss_pct : ℚ := if buy_price > 0 then (price - buy_price) / buy_price * 100 else 0
  let trade : Trade :=
    { id := (st1.trades.length : Int) + 1, symbol := symbol, action := "SELL",
      quantity := quantity, price := price, total_value := total_proceeds,
      buy_price := some buy_price, profit_loss := some profit_loss,
      profit_loss_pct := some profit_loss_pct, hold_days := some days_held,
      executed_at := now }
  if fault = some .dbTrade then (st1, .error (fault_text .dbTrade))
  else
    let st2 := { st1 with trades := st1.trades ++ [trade] }
    if fault = some .dbHolding then (st2, .error (fault_text .dbHolding))
    else
      let st3 := { st2 with
        holdings := match holding? with
          | some h =>
              if h.quantity ≤ quantity then removeFirst symbol st2.holdings
              else updateFirst (fun g =>
                { g with quantity := g.quantity - quantity,
                         total_cost := ((g.quantity - quantity : Int) : ℚ) * g.avg_buy_price })
                symbol st2.holdings
          | none => st2.holdings }
      if fault = some .dbLog then (st3, .error (fault_text .dbLog))
      else (st3, .ok trade)

/-- TradeExecutor._execute_paper_trade: fill at the suggested price,
record in the portfolio, set the signal EXECUTED with the trade id, send
the confirmation SMS, and only then mark the result successful.  Any
exception in that sequence is caught: the message becomes the paper
failure text and the signal is set CANCELLED with the exception text as
notes. -/
def execute_paper_trade (cfg : TradingConfig) (now : Int)
    (fault : Option ExecFault) (st : ExecState) (result0 : ExecResult) :
    ExecResult × ExecState :=
  let q := st.signal.suggested_quantity
  let p := st.signal.suggested_price
  let run :=
    if st.signal.action == "BUY" then
      record_buy_run cfg now st.pm st.signal.symbol q p fault
    else
      record_sell_run now st.pm st.signal.symbol q p fault
  match run with
  | (pm', .error e) =>
      let stC := update_signal_status { st with pm := pm' } .CANCELLED none (some e)
      ({ result0 with success := false, message := "Paper trade execution failed: " ++ e }, stC)
  | (pm', .ok trade) =>
      let stF := { st with pm := pm' }
      if fault = some .statusUpdate then
        let stC := update_signal_status stF .CANCELLED none (some (fault_text .statusUpdate))
        let res : ExecResult := { result0 with success := false, message := "Paper trade execution failed: " ++ fault_text .statusUpdate }
        (res, stC)
      else
        let stE := update_signal_status stF .EXECUTED (some trade.id) none
        if fault = some .smsSend then
          let stC := update_signal_status stE .CANCELLED none (some (fault_text .smsSend))
          let res : ExecResult := { result0 with success := false, message := "Paper trade execution failed: " ++ fault_text .smsSend }
          (res, stC)
        else
          let res : ExecResult := { result0 with success := true, message := "[PAPER] executed", fill_price := some p, trade_id := some trade.id }
          (res, stE)

/-- TradeExecutor.execute_signal in paper mode.  Step 1: a non-APPROVED
signal returns a failure result naming the current status, with no state
change.  Step 2: the risk re-check runs outside any try/except, so a
riskFault exception propagates to the caller (Except.error); available
cash and holdings count come from the portfolio, and the peak_value
argument falls back to total_value because get_portfolio_value returns
no peak_value key.  A risk rejection cancels the signal with the risk
reason.  Steps 3-4 run inside the try of _execute_paper_trade. -/
def execute_signal (cfg : TradingConfig) (kv : KV) (now : Int)
    (portfolio_value : ℚ) (riskFault : Bool) (fault : Option ExecFault)
    (st : ExecState) : Except String (ExecResult × ExecState × KV) :=
  let result0 : ExecResult :=
    { success := false, message := "", fill_price := none, trade_id := none }
  if st.signal.status ≠ "APPROVED" then
    let res : ExecResult := { result0 with message := "Signal not approved (status: " ++ st.signal.status ++ ")" }
    .ok (res, st, kv)
  else if riskFault then .error "risk check raised"
  else
    let riskR := pre_trade_check cfg kv st.pm.trades now st.signal.action
      st.signal.suggested_quantity st.signal.suggested_price st.pm.cash_balance
      (st.pm.holdings.length : Int) portfolio_value portfolio_value
    if !riskR.1 then
      let stC := update_signal_status st .CANCELLED none (some riskR.2.1)
      .ok ({ result0 with message := "Risk check failed: " ++ riskR.2.1 }, stC, riskR.2.2)
    else
      let r := execute_paper_trade cfg now fault st result0
      .ok (r.1, r.2, riskR.2.2)

/-
Approval coordinator (src/notifications/twilio_sms.py).
get_recent_incoming_messages lists the messages sent TO the Twilio
number (filter to=from_number) and normalizes each body with
strip().upper(); the sender field is returned but wait_for_response
never inspects it.  wait_for_response polls batches of such messages
until a recognized token arrives or the timeout elapses; a run is
modelled as the finite list of polled batches before the deadline, the
empty list of remaining batches standing for the timeout.
-/

/-- An inbound SMS as polled from Twilio: raw body plus sender number. -/
structure InMsg where
  rawBody : String
  sender : String
deriving Repr, DecidableEq

/-- Body normalization done in get_recent_incoming_messages:
msg.body.strip().upper().  Python strip drops surrounding whitespace and
upper maps every character to upper case; modelled on the character
list. -/
def normalizeBody (s : String) : String :=
  String.mk (((s.data.dropWhile Char.isWhitespace).reverse.dropWhile
    Char.isWhitespace).reverse.map Char.toUpper)

/-- Outcome tokens of wait_for_response. -/
inductive Resp
  | Y | N | M
deriving Repr, DecidableEq

/-- Token recognition of wait_for_response, in source order: the
approve set, the reject set, then the modify prefix test (startswith M;
the additional startswith MOD test is subsumed). -/
def matchResponse (body : String) : Option Resp :=
  if body == "Y" || body == "YES" || body == "APPROVE" then some .Y
  else if body == "N" || body == "NO" || body == "REJECT" then some .N
  else if "M".data.isPrefixOf body.data then some .M
  else none

/-- One pass of the for-loop over a polled batch: the first message with
a recognized normalized body decides; unrecognized messages are skipped. -/
def scanBatch : List InMsg → Option Resp
  | [] => none
  | m :: ms =>
    match matchResponse (normalizeBody m.rawBody) with
    | some r => some r
    | none => scanBatch ms

/-- TwilioSMS.wait_for_response over the polled batches: Y approves the
signal, N rejects it, M returns without touching the status, and
exhausting the polls (timeout) marks the signal EXPIRED.  Returns the
response (None on timeout) and the resulting signal status. -/
def wait_for_response (signalStatus : String) :
    List (List InMsg) → Option Resp × String
  | [] => (none, SignalStatus.EXPIRED.value)
  | batch :: rest =>
    match scanBatch batch with
    | some .Y => (some .Y, SignalStatus.APPROVED.value)
    | some .N => (some .N, SignalStatus.REJECTED.value)
    | some .M => (some .M, signalStatus)
    | none => wait_for_response signalStatus rest

/-- Modelled from the spec (claim C9): the part of each polled batch
attributable to the configured counterpart.  Two runs differ only in
unrecognized text or in messages from other senders when their
counterpart views agree up to recognized tokens; the code itself never
computes this view. -/
def counterpartView (counterpart : String) (polls : List (List InMsg)) :
    List (List InMsg) :=
  polls.map (fun b => b.filter (fun m => m.sender == counterpart))

/-- Recognized-token view of a run: per poll, the recognized tokens of
the normalized bodies in order.  wait_for_response depends only on this. -/
def tokenView (polls : List (List InMsg)) : List (List Resp) :=
  polls.map (fun b => b.filterMap (fun m => matchResponse (normalizeBody m.rawBody)))

/-
Helper lemmas about the holdings-table primitives.
-/

lemma get_holding_updateFirst (f : Holding → Holding) (s : String)
    (hf : ∀ h : Holding, (f h).symbol = h.symbol) :
    ∀ hs : List Holding,
      get_holding (updateFirst f s hs) s = (get_holding hs s).map f := by
  intro hs
  induction hs with
  | nil => rfl
  | cons h t ih =>
    simp only [updateFirst]
    by_cases hsym : h.symbol == s
    · rw [if_pos hsym]
      show List.find? _ (f h :: t) = (List.find? _ (h :: t)).map f
      rw [List.find?_cons_of_pos _ (by simpa [hf] using hsym),
          List.find?_cons_of_pos _ (by simpa using hsym)]
      rfl
    · rw [if_neg hsym]
      show List.find? _ (h :: updateFirst f s t) = (List.find? _ (h :: t)).map f
      rw [List.find?_cons_of_neg _ (by simpa using hsym),
          List.find?_cons_of_neg _ (by simpa using hsym)]
      exact ih

lemma get_holding_notmem (s : String) :
    ∀ hs : List Holding, (∀ g ∈ hs, g.symbol ≠ s) → get_holding hs s = none := by
  intro hs h
  simp only [get_holding, List.find?_eq_none]
  intro x hx
  simpa using h x hx

lemma get_holding_removeFirst (s : String) :
    ∀ hs : List Holding, (hs.map (fun h => h.symbol)).Nodup →
      get_holding (removeFirst s hs) s = none := by
  intro hs
  induction hs with
  | nil => intro _; rfl
  | cons h t ih =>
    intro hnd
    simp only [List.map_cons, List.nodup_cons] at hnd
    simp only [removeFirst]
    by_cases hsym : h.symbol == s
    · rw [if_pos hsym]
      apply get_holding_notmem
      intro g hg hgs
      apply hnd.1
      rw [eq_of_beq hsym, ← hgs]
      exact List.mem_map_of_mem (fun x => x.symbol) hg
    · rw [if_neg hsym]
      show List.find? _ (h :: removeFirst s t) = none
      rw [List.find?_cons_of_neg _ (by simpa using hsym)]
      exact ih hnd.2

lemma get_holding_append_single (hs : List Holding) (h : Holding) (s : String)
    (hnone : get_holding hs s = none) (hsym : h.symbol = s) :
    get_holding (hs ++ [h]) s = some h := by
  simp only [get_holding, List.find?_append] at *
  rw [hnone]
  simp [hsym]

/-
Shared concrete fixtures used by witnesses and counterexamples.
The configuration mirrors the defaults of src/config.py.
-/

/-- Default trading configuration values (config.py defaults). -/
def cfg0 : TradingConfig :=
  { initial_budget := 1000, max_position_pct := 33, max_holdings := 2,
    stop_loss_pct := -5, take_profit_pct := 10, approval_timeout_minutes := 15,
    max_drawdown_pct := -15, max_daily_trades := 4 }

/-- Empty portfolio with the initial budget in cash. -/
def pm0 : PMState := { cash_balance := 1000, holdings := [], trades := [] }

/-- C4 claim of spec section 8: the claim is about every call to
record_buy: cash is debited by qty times price, the holding is upserted
with the weighted-average cost basis, the stop-loss and take-profit are
recomputed from this fill price, and one trade row is appended. -/
theorem C4_record_buy_weighted_average (cfg : TradingConfig) (now : Int) (st : PMState)
    (symbol : String) (q : Int) (p : ℚ) :
    (record_buy cfg now st symbol q p).1.cash_balance
        = st.cash_balance - (q : ℚ) * p
    ∧ (record_buy cfg now st symbol q p).1.trades
        = st.trades ++ [(record_buy cfg now st symbol q p).2]
    ∧ (record_buy cfg now st symbol q p).2.action = "BUY"
    ∧ (record_buy cfg now st symbol q p).2.quantity = q
    ∧ (record_buy cfg now st symbol q p).2.price = p
    ∧ (record_buy cfg now st symbol q p).2.total_value = (q : ℚ) * p
    ∧ (∀ h : Holding, get_holding st.holdings symbol = some h →
        get_holding (record_buy cfg now st symbol q p).1.holdings symbol = some
          { h with
            quantity := h.quantity + q
            avg_buy_price := (h.total_cost + (q : ℚ) * p) / ((h.quantity + q : Int) : ℚ)
            total_cost := h.total_cost + (q : ℚ) * p
            stop_loss_price := p * (1 + cfg.stop_loss_pct / 100)
            take_profit_price := p * (1 + cfg.take_profit_pct / 100) })
    ∧ (get_holding st.holdings symbol = none →
        get_holding (record_buy cfg now st symbol q p).1.holdings symbol = some
          { symbol := symbol, quantity := q, avg_buy_price := p,
            total_cost := (q : ℚ) * p,
            stop_loss_price := p * (1 + cfg.stop_loss_pct / 100),
            take_profit_price := p * (1 + cfg.take_profit_pct / 100),
            first_bought_at := now }) := by
  refine ⟨rfl, rfl, rfl, rfl, rfl, rfl, ?_, ?_⟩
  · intro h hh
    show get_holding (update_or_create_holding st.holdings now symbol q p _ _) symbol = _
    simp only [update_or_create_holding, hh]
    have hupd := get_holding_updateFirst
      (fun g => { g with
        quantity := g.quantity + q
        avg_buy_price := (g.total_cost + (q : ℚ) * p) / ((g.quantity + q : Int) : ℚ)
        total_cost := g.total_cost + (q : ℚ) * p
        stop_loss_price := p * (1 + cfg.stop_loss_pct / 100)
        take_profit_price := p * (1 + cfg.take_profit_pct / 100) })
      symbol (fun _ => rfl) st.holdings
    rw [hupd, hh]
    rfl
  · intro hh
    show get_holding (update_or_create_holding st.holdings now symbol q p _ _) symbol = _
    simp only [update_or_create_holding, hh]
    exact get_holding_append_single _ _ _ hh rfl

/-- Portfolio after the first example buy: 10 shares of X at 10. -/
def st1ex : PMState := (record_buy cfg0 0 pm0 "X" 10 10).1

/-- C4 witness: the spec example, buy 10 at 10 dollars then 10 at 20
dollars, gives avg_buy_price 15, total_cost 300, quantity 20 (and the
second lot's price drives stop-loss 19 and take-profit 22). -/
theorem C4_record_buy_weighted_average_witness :
    get_holding ((record_buy cfg0 0 st1ex "X" 10 20).1).holdings "X" = some
      { symbol := "X", quantity := 20, avg_buy_price := 15, total_cost := 300,
        stop_loss_price := 19, take_profit_price := 22, first_bought_at := 0 } := by
  have h := (C4_record_buy_weighted_average cfg0 0 st1ex "X" 10 20).2.2.2.2.2.2.1
  have hh : get_holding st1ex.holdings "X" = some
      { symbol := "X", quantity := 10, avg_buy_price := 10, total_cost := 100,
        stop_loss_price := 19/2, take_profit_price := 11, first_bought_at := 0 } := by
    norm_num [st1ex, record_buy, update_or_create_holding, get_holding, pm0, cfg0]
  rw [h _ hh]
  norm_num [cfg0]

/-- C5 claim: record_sell on an existing holding credits cash by qty
times price, appends one SELL trade row whose profit_loss,
profit_loss_pct and hold_days come from the holding's weighted average
and first purchase date, deletes the holding when qty is at least its
quantity (overshoot absorbed), and otherwise decrements the quantity
with the total cost reduced proportionally.  The average is assumed
nonnegative (holdings are written by record_buy from nonnegative
prices); the holdings table has unique symbols. -/
theorem C5_record_sell_existing (now : Int) (st : PMState) (symbol : String)
    (q : Int) (p : ℚ) (h : Holding)
    (hh : get_holding st.holdings symbol = some h)
    (hpos : 0 ≤ h.avg_buy_price)
    (hnd : (st.holdings.map (fun x => x.symbol)).Nodup) :
    (record_sell now st symbol q p).1.cash_balance = st.cash_balance + (q : ℚ) * p
    ∧ (record_sell now st symbol q p).1.trades
        = st.trades ++ [(record_sell now st symbol q p).2]
    ∧ (record_sell now st symbol q p).2.action = "SELL"
    ∧ (record_sell now st symbol q p).2.buy_price = some h.avg_buy_price
    ∧ (record_sell now st symbol q p).2.profit_loss
        = some ((p - h.avg_buy_price) * (q : ℚ))
    ∧ (record_sell now st symbol q p).2.profit_loss_pct
        = some ((p - h.avg_buy_price) / h.avg_buy_price * 100)
    ∧ (record_sell now st symbol q p).2.hold_days
        = some ((now - h.first_bought_at).fdiv secondsPerDay)
    ∧ (h.quantity ≤ q →
        get_holding (record_sell now st symbol q p).1.holdings symbol = none)
    ∧ (q < h.quantity →
        get_holding (record_sell now st symbol q p).1.holdings symbol = some
          { h with quantity := h.quantity - q,
                   total_cost := ((h.quantity - q : Int) : ℚ) * h.avg_buy_price }) := by
  refine ⟨?_, ?_, ?_, ?_, ?_, ?_, ?_, ?_, ?_⟩
  · simp only [record_sell, hh]
  · simp only [record_sell, hh]
  · simp only [record_sell, hh]
  · simp only [record_sell, hh]
  · simp only [record_sell, hh]
  · simp only [record_sell, hh]
    rcases eq_or_lt_of_le hpos with heq | hlt
    · rw [if_neg (by rw [← heq]; exact lt_irrefl 0), ← heq]
      norm_num
    · rw [if_pos hlt]
  · simp only [record_sell, hh]
  · intro hq
    simp only [record_sell, hh, if_pos hq]
    exact get_holding_removeFirst symbol st.holdings hnd
  · intro hq
    simp only [record_sell, hh, if_neg (not_le.mpr hq)]
    have hupd := get_holding_updateFirst
      (fun g => { g with
        quantity := g.quantity - q
        total_cost := ((g.quantity - q : Int) : ℚ) * g.avg_buy_price })
      symbol (fun _ => rfl) st.holdings
    rw [hupd, hh]
    rfl

/-- Holding fixture: 10 shares of X with weighted average 10. -/
def hX0 : Holding :=
  { symbol := "X", quantity := 10, avg_buy_price := 10, total_cost := 100,
    stop_loss_price := 19/2, take_profit_price := 11, first_bought_at := 0 }

/-- Portfolio holding only hX0. -/
def stW : PMState := { cash_balance := 0, holdings := [hX0], trades := [] }

/-- C5 witness: the spec example, holding with avg_buy_price 10, sell
10 at 12 dollars: profit_loss 20, profit_loss_pct 20, holding removed. -/
theorem C5_record_sell_existing_witness :
    (record_sell 0 stW "X" 10 12).2.profit_loss = some 20
    ∧ (record_sell 0 stW "X" 10 12).2.profit_loss_pct = some 20
    ∧ get_holding ((record_sell 0 stW "X" 10 12).1).holdings "X" = none := by
  obtain ⟨-, -, -, -, hpl, hpct, -, hdel, -⟩ :=
    C5_record_sell_existing 0 stW "X" 10 12 hX0 rfl
      (by norm_num [hX0]) (by simp [stW])
  refine ⟨?_, ?_, ?_⟩
  · rw [hpl]; norm_num [hX0]
  · rw [hpct]; norm_num [hX0]
  · exact hdel (by norm_num [hX0])

/-- C10 claim: record_sell with no holding for the symbol still
completes: cash is credited, a SELL trade row is appended with buy_price
0, profit_loss price times qty, profit_loss_pct 0 and hold_days 0, and
the holdings table is untouched. -/
theorem C10_record_sell_without_holding (now : Int) (st : PMState) (symbol : String)
    (q : Int) (p : ℚ)
    (hh : get_holding st.holdings symbol = none) :
    (record_sell now st symbol q p).1.cash_balance = st.cash_balance + (q : ℚ) * p
    ∧ (record_sell now st symbol q p).1.trades
        = st.trades ++ [(record_sell now st symbol q p).2]
    ∧ (record_sell now st symbol q p).2.action = "SELL"
    ∧ (record_sell now st symbol q p).2.buy_price = some 0
    ∧ (record_sell now st symbol q p).2.profit_loss = some (p * (q : ℚ))
    ∧ (record_sell now st symbol q p).2.profit_loss_pct = some 0
    ∧ (record_sell now st symbol q p).2.hold_days = some 0
    ∧ (record_sell now st symbol q p).1.holdings = st.holdings := by
  refine ⟨?_, ?_, ?_, ?_, ?_, ?_, ?_, ?_⟩ <;>
    simp only [record_sell, hh] <;> norm_num

/-- C10 witness: selling 5 at 7 dollars with no holding on the books. -/
theorem C10_record_sell_without_holding_witness :
    (record_sell 0 pm0 "Z" 5 7).1.cash_balance = 1035
    ∧ (record_sell 0 pm0 "Z" 5 7).2.profit_loss = some 35
    ∧ (record_sell 0 pm0 "Z" 5 7).2.profit_loss_pct = some 0
    ∧ (record_sell 0 pm0 "Z" 5 7).1.holdings = [] := by
  obtain ⟨hc, -, -, -, hpl, hpct, -, hhold⟩ :=
    C10_record_sell_without_holding 0 pm0 "Z" 5 7 rfl
  refine ⟨?_, ?_, ?_, ?_⟩
  · rw [hc]; norm_num [pm0]
  · rw [hpl]; norm_num
  · exact hpct
  · exact hhold

/-- C3 claim: execute_signal on a signal whose status is not APPROVED is
a no-op: a failure result naming the current status, with the portfolio,
the trades, the signal row and the persisted state all unchanged. -/
theorem C3_execute_non_approved (cfg : TradingConfig) (kv : KV) (now : Int)
    (pv : ℚ) (riskFault : Bool) (fault : Option ExecFault) (st : ExecState)
    (h : st.signal.status ≠ "APPROVED") :
    execute_signal cfg kv now pv riskFault fault st = .ok
      ({ success := false,
         message := "Signal not approved (status: " ++ st.signal.status ++ ")",
         fill_price := none, trade_id := none }, st, kv) := by
  simp [execute_signal, h]

/-- Signal fixture: an already EXECUTED signal. -/
def sigE : Signal :=
  { id := 1, symbol := "X", action := "BUY", suggested_price := 150,
    suggested_quantity := 2, status := "EXECUTED", trade_id := some 1 }

/-- Executor state around sigE. -/
def stE : ExecState := { pm := pm0, signal := sigE, audit := [] }

/-- C3 witness: executing an already EXECUTED signal only reports the
status and changes nothing. -/
theorem C3_execute_non_approved_witness :
    execute_signal cfg0 [] 0 1000 false none stE = .ok
      ({ success := false,
         message := "Signal not approved (status: " ++ stE.signal.status ++ ")",
         fill_price := none, trade_id := none }, stE, []) :=
  C3_execute_non_approved cfg0 [] 0 1000 false none stE (by decide)

/-
Helper lemmas about the TradingState key/value store and the pause gate.
-/

lemma get_state_set_same (k v : String) :
    ∀ kv : KV, get_state (set_state kv k v) k = some v := by
  intro kv
  induction kv with
  | nil => simp [set_state, get_state]
  | cons p ps ih =>
    by_cases hk : p.1 == k
    · simp [set_state, hk, get_state]
    · simp only [set_state, hk, Bool.false_eq_true, if_false, get_state]
      rw [List.find?_cons_of_neg _ (by simpa using hk)]
      exact ih

lemma get_state_set_other (k k' v : String) (hne : k' ≠ k) :
    ∀ kv : KV, get_state (set_state kv k v) k' = get_state kv k' := by
  intro kv
  induction kv with
  | nil =>
    simp only [set_state, get_state]
    rw [List.find?_cons_of_neg _ (by simpa using fun h => hne h.symm)]
  | cons p ps ih =>
    by_cases hk : p.1 == k
    · simp only [set_state, hk, if_true, get_state]
      rw [List.find?_cons_of_neg _ (by simpa using fun h => hne h.symm),
        List.find?_cons_of_neg _ (by
          simp only [beq_iff_eq]
          intro hp2
          exact hne (hp2 ▸ eq_of_beq hk))]
    · by_cases hp : p.1 == k'
      · simp only [set_state, hk, Bool.false_eq_true, if_false, get_state]
        rw [List.find?_cons_of_pos _ (by simpa using hp),
          List.find?_cons_of_pos _ (by simpa using hp)]
      · simp only [set_state, hk, Bool.false_eq_true, if_false, get_state]
        rw [List.find?_cons_of_neg _ (by simpa using hp),
          List.find?_cons_of_neg _ (by simpa using hp)]
        exact ih

lemma pause_trading_sets_flag (kv : KV) (reason : String) (now : Int) :
    get_state (pause_trading kv reason now) "trading_paused" = some "true" := by
  rw [pause_trading, get_state_set_other _ _ _ (by decide),
    get_state_set_other _ _ _ (by decide), get_state_set_same]

lemma resume_trading_clears_flag (kv : KV) :
    is_trading_paused (resume_trading kv) = (false, "Trading active") := by
  rw [is_trading_paused, resume_trading]
  rw [get_state_set_other _ _ _ (by decide), get_state_set_same]
  rfl

/-- When the persisted pause flag is set, pre_trade_check rejects with
the pause message and leaves the state untouched. -/
lemma pre_trade_check_paused (cfg : TradingConfig) (kv : KV) (trades : List Trade)
    (now : Int) (action : String) (quantity : Int) (price available_cash : ℚ)
    (current_holdings : Int) (portfolio_value peak_value : ℚ)
    (hp : get_state kv "trading_paused" = some "true") :
    pre_trade_check cfg kv trades now action quantity price available_cash
        current_holdings portfolio_value peak_value
      = (false, "Trading paused: " ++ (is_trading_paused kv).2, kv) := by
  have hpb : (is_trading_paused kv).1 = true := by
    simp [is_trading_paused, hp]
  simp only [pre_trade_check, hpb, if_true]

/-- C2 claim: with peak_value > 0 and drawdown_pct at or below the
negative max_drawdown_pct threshold, pre_trade_check returns not-allowed
and leaves the persisted pause flag set; every subsequent
pre_trade_check (any arguments) then rejects, reporting the pause and
leaving the state unchanged, until resume_trading clears the flag. -/
theorem C2_drawdown_breach_pauses (cfg : TradingConfig) (kv : KV) (trades : List Trade)
    (now : Int) (action : String) (quantity : Int) (price available_cash : ℚ)
    (current_holdings : Int) (pv peak : ℚ)
    (hpeak : 0 < peak)
    (hdd : (pv - peak) / peak * 100 ≤ cfg.max_drawdown_pct) :
    (pre_trade_check cfg kv trades now action quantity price available_cash
        current_holdings pv peak).1 = false
    ∧ get_state (pre_trade_check cfg kv trades now action quantity price available_cash
        current_holdings pv peak).2.2 "trading_paused" = some "true"
    ∧ (∀ (trades' : List Trade) (now' : Int) (action' : String) (q' : Int)
          (price' cash' : ℚ) (cnt' : Int) (pv' peak' : ℚ),
        pre_trade_check cfg
            (pre_trade_check cfg kv trades now action quantity price available_cash
              current_holdings pv peak).2.2
            trades' now' action' q' price' cash' cnt' pv' peak'
          = (false, "Trading paused: " ++
              (is_trading_paused (pre_trade_check cfg kv trades now action quantity price
                available_cash current_holdings pv peak).2.2).2,
              (pre_trade_check cfg kv trades now action quantity price available_cash
                current_holdings pv peak).2.2))
    ∧ is_trading_paused (resume_trading
        (pre_trade_check cfg kv trades now action quantity price available_cash
          current_holdings pv peak).2.2) = (false, "Trading active") := by
  have main : (pre_trade_check cfg kv trades now action quantity price available_cash
        current_holdings pv peak).1 = false
      ∧ get_state (pre_trade_check cfg kv trades now action quantity price available_cash
        current_holdings pv peak).2.2 "trading_paused" = some "true" := by
    by_cases hg : get_state kv "trading_paused" = some "true"
    · rw [pre_trade_check_paused cfg kv trades now action quantity price available_cash
        current_holdings pv peak hg]
      exact ⟨rfl, hg⟩
    · have hpb : (is_trading_paused kv).1 = false := by
        simp [is_trading_paused, hg]
      have hddR : check_drawdown cfg pv peak = (false, "Max drawdown reached", true) := by
        rw [check_drawdown, if_neg (not_le.mpr hpeak)]
        simp [hdd]
      have hr : pre_trade_check cfg kv trades now action quantity price available_cash
          current_holdings pv peak
          = (false, "Max drawdown reached", pause_trading kv "Max drawdown reached" now) := by
        simp [pre_trade_check, hpb, hddR]
      rw [hr]
      exact ⟨rfl, pause_trading_sets_flag kv "Max drawdown reached" now⟩
  refine ⟨main.1, main.2, ?_, ?_⟩
  · intro trades' now' action' q' price' cash' cnt' pv' peak'
    exact pre_trade_check_paused cfg _ trades' now' action' q' price' cash' cnt' pv' peak' main.2
  · exact resume_trading_clears_flag _

/-- C2 witness: the spec example, peak 1200, value 1000 (drawdown about
minus 16.67 percent), threshold minus 15: rejected and paused. -/
theorem C2_drawdown_breach_pauses_witness :
    (pre_trade_check cfg0 [] [] 0 "BUY" 1 10 1000 0 1000 1200).1 = false
    ∧ get_state (pre_trade_check cfg0 [] [] 0 "BUY" 1 10 1000 0 1000 1200).2.2
        "trading_paused" = some "true"
    ∧ (∀ (trades' : List Trade) (now' : Int) (action' : String) (q' : Int)
          (price' cash' : ℚ) (cnt' : Int) (pv' peak' : ℚ),
        pre_trade_check cfg0
            (pre_trade_check cfg0 [] [] 0 "BUY" 1 10 1000 0 1000 1200).2.2
            trades' now' action' q' price' cash' cnt' pv' peak'
          = (false, "Trading paused: " ++
              (is_trading_paused
                (pre_trade_check cfg0 [] [] 0 "BUY" 1 10 1000 0 1000 1200).2.2).2,
              (pre_trade_check cfg0 [] [] 0 "BUY" 1 10 1000 0 1000 1200).2.2))
    ∧ is_trading_paused (resume_trading
        (pre_trade_check cfg0 [] [] 0 "BUY" 1 10 1000 0 1000 1200).2.2)
      = (false, "Trading active") :=
  C2_drawdown_breach_pauses cfg0 [] [] 0 "BUY" 1 10 1000 0 1000 1200
    (by norm_num) (by norm_num [cfg0])

/-- C7 claim: the daily-trade-count check rejects exactly when the
number of trades executed since midnight of the current day has reached
max_daily_trades, and (paused and drawdown branches aside, neither taken
here) pre_trade_check performs no write to the persisted state: the
key/value store it returns is the one it was given, and a daily-limit
rejection returns exactly (false, reason, unchanged state). -/
theorem C7_daily_trade_limit (cfg : TradingConfig) (kv : KV) (trades : List Trade)
    (now : Int) (action : String) (quantity : Int) (price available_cash : ℚ)
    (current_holdings : Int) (pv peak : ℚ)
    (hnp : (is_trading_paused kv).1 = false)
    (hdd : (check_drawdown cfg pv peak).2.2 = false) :
    ((check_daily_trades cfg trades now).1 = false ↔
      cfg.max_daily_trades ≤
        ((trades.filter (fun t => todayStart now ≤ t.executed_at)).length : Int))
    ∧ (pre_trade_check cfg kv trades now action quantity price available_cash
        current_holdings pv peak).2.2 = kv
    ∧ ((check_daily_trades cfg trades now).1 = false →
        pre_trade_check cfg kv trades now action quantity price available_cash
          current_holdings pv peak
          = (false, "Daily trade limit reached", kv)) := by
  refine ⟨?_, ?_, ?_⟩
  · rw [check_daily_trades]
    split_ifs with h
    · simpa using h
    · simpa using h
  · simp only [pre_trade_check, hnp, Bool.false_eq_true, if_false, hdd]
    split_ifs <;> rfl
  · intro hdl
    have hd2 : check_daily_trades cfg trades now = (false, "Daily trade limit reached") := by
      rw [check_daily_trades] at hdl ⊢
      split_ifs at hdl ⊢ with h
      rfl
    simp [pre_trade_check, hnp, hdd, hd2]

/-- Minimal trade row constructor for fixtures. -/
def mkTrade (sym act : String) (t : Int) : Trade :=
  { id := 0, symbol := sym, action := act, quantity := 1, price := 1, total_value := 1,
    buy_price := none, profit_loss := none, profit_loss_pct := none, hold_days := none,
    executed_at := t }

/-- Four trades executed today. -/
def trades7 : List Trade :=
  [mkTrade "A" "BUY" 0, mkTrade "B" "BUY" 0, mkTrade "C" "BUY" 0, mkTrade "D" "BUY" 0]

/-- C7 witness: with max_daily_trades 4 and four trades already executed
since midnight, pre_trade_check rejects with the daily-limit reason and
writes nothing. -/
theorem C7_daily_trade_limit_witness :
    pre_trade_check cfg0 [] trades7 0 "BUY" 1 10 1000 0 1000 1000
      = (false, "Daily trade limit reached", []) := by
  have h := C7_daily_trade_limit cfg0 [] trades7 0 "BUY" 1 10 1000 0 1000 1000
    rfl (by norm_num [check_drawdown, cfg0])
  exact h.2.2 (by decide)

/-- C8 counterexample: a snapshot sequence produced by take_snapshot on
total values 0 then -10.  The first snapshot records peak_value 0; since
the stored peak 0 is falsy, the second snapshot restarts the peak at the
current total -10 instead of max(-10, 0) = 0, so the claimed watermark
equality fails and peak_value strictly decreases. -/
theorem C8_peak_watermark_cex :
    (snapshotSeq [(0 : ℚ), -10]).map (fun s => s.peak_value) = [some 0, some (-10)]
    ∧ ¬ ((-10 : ℚ) = max (-10 : ℚ) 0)
    ∧ ((-10 : ℚ) < 0) := by
  refine ⟨?_, by norm_num, by norm_num⟩
  norm_num [snapshotSeq, snapshotSeqAux, take_snapshot]

/-- C8 amended: every snapshot satisfies drawdown at most 0, and the
watermark equality peak_value = max(total_value, previous peak) holds
whenever the previous snapshot's peak_value is present and nonzero (a
null or zero stored peak is treated as absent and the peak restarts at
the current total). -/
theorem C8_peak_watermark_amended (prev : Option PortfolioSnapshot) (total : ℚ) :
    (take_snapshot prev total).drawdown ≤ 0
    ∧ (∀ p pv, prev = some p → p.peak_value = some pv → pv ≠ 0 →
        (take_snapshot prev total).peak_value = some (max total pv)
        ∧ pv ≤ max total pv) := by
  constructor
  · rcases prev with _ | p
    · simp [take_snapshot]
    · rcases hpv : p.peak_value with _ | pv
      · simp [take_snapshot, hpv]
      · by_cases h0 : pv = 0
        · simp [take_snapshot, hpv, h0]
        · simp only [take_snapshot, hpv, h0, ne_eq, not_false_eq_true, if_true]
          exact sub_nonpos.mpr (le_max_left _ _)
  · intro p pv hp hpv h0
    subst hp
    refine ⟨by simp [take_snapshot, hpv, h0], le_max_right _ _⟩

/-- Previous snapshot fixture with a positive stored peak. -/
def snapPrev : PortfolioSnapshot :=
  { total_value := 5, daily_pl := none, peak_value := some 5, drawdown := 0,
    drawdown_pct := 0 }

/-- C8 witness: from a previous peak 5 and current total 3, the next
snapshot keeps peak max(3,5) = 5 and a nonpositive drawdown. -/
theorem C8_peak_watermark_amended_witness :
    (take_snapshot (some snapPrev) 3).drawdown ≤ 0
    ∧ (take_snapshot (some snapPrev) 3).peak_value = some (max 3 5)
    ∧ (5 : ℚ) ≤ max 3 5 := by
  obtain ⟨h1, h2⟩ := C8_peak_watermark_amended (some snapPrev) 3
  obtain ⟨h3, h4⟩ := h2 snapPrev 5 rfl rfl (by norm_num)
  exact ⟨h1, h3, h4⟩

/-- Modelled from the spec (claim C6): the number of distinct
(symbol, calendar-date) pairs in the rolling 7-day window in which both
a BUY and a SELL of that symbol occurred on that date.  This follows the
claim's words; the code's scan in check_pdt_rule is compared against it. -/
def spec_day_trade_pairs (trades : List Trade) (now : Int) : Nat :=
  let w := trades.filter (fun t => now - 7 * secondsPerDay ≤ t.executed_at)
  ((w.map tkey).dedup.filter (fun k =>
    (w.any (fun t => t.action == "BUY" && decide (tkey t = k))) &&
    (w.any (fun t => t.action == "SELL" && decide (tkey t = k))))).length

/-- One BUY of X followed by three SELLs of X, all on the same day. -/
def trades6 : List Trade :=
  [mkTrade "X" "BUY" 1000, mkTrade "X" "SELL" 2000,
   mkTrade "X" "SELL" 3000, mkTrade "X" "SELL" 4000]

/-- Reference time for the PDT counterexample window. -/
def now6 : Int := 7 * 86400

/-- C6 counterexample: on one BUY followed by three SELLs of the same
symbol on the same day, the code counts 3 day trades and rejects, but
only one (symbol, date) pair has both a BUY and a SELL, so the claimed
pair-count criterion (reject iff pairs >= 3) does not hold. -/
theorem C6_pdt_cex :
    (check_pdt_rule trades6 now6).1 = false
    ∧ spec_day_trade_pairs trades6 now6 = 1
    ∧ ¬ (3 ≤ spec_day_trade_pairs trades6 now6) := by
  decide

/-- Declarative day-trade count: scanning the trades in order, each SELL
preceded (in the scanned prefix, seeded by pre) by a BUY of the same
symbol on the same calendar date counts one day trade. -/
def dayTradesFrom (pre : List Trade) : List Trade → Nat
  | [] => 0
  | t :: rest =>
    (if t.action = "SELL" ∧ ∃ u ∈ pre, u.action = "BUY" ∧ tkey u = tkey t then 1 else 0)
    + dayTradesFrom (pre ++ [t]) rest

lemma dayTradesLoop_eq_from :
    ∀ (l : List Trade) (buys : List (String × Int)) (pre : List Trade),
      (∀ k : String × Int, k ∈ buys ↔ ∃ u ∈ pre, u.action = "BUY" ∧ tkey u = k) →
      dayTradesLoop l buys = dayTradesFrom pre l := by
  intro l
  induction l with
  | nil => intro buys pre hb; rfl
  | cons t rest ih =>
    intro buys pre hb
    by_cases hbuy : t.action == "BUY"
    · have haction : t.action = "BUY" := eq_of_beq hbuy
      simp only [dayTradesLoop, hbuy, if_true, dayTradesFrom]
      rw [if_neg (by rw [haction]; rintro ⟨hs, -⟩; exact absurd hs (by decide))]
      rw [Nat.zero_add]
      refine ih (tkey t :: buys) (pre ++ [t]) ?_
      intro k
      constructor
      · intro hk
        rcases List.mem_cons.mp hk with rfl | hkb
        · exact ⟨t, List.mem_append_right _ (List.mem_singleton_self t), haction, rfl⟩
        · obtain ⟨u, hu, hbu, hku⟩ := (hb k).mp hkb
          exact ⟨u, List.mem_append_left _ hu, hbu, hku⟩
      · rintro ⟨u, hu, hbu, hku⟩
        rcases List.mem_append.mp hu with hu' | hu'
        · exact List.mem_cons_of_mem _ ((hb k).mpr ⟨u, hu', hbu, hku⟩)
        · rw [List.mem_singleton.mp hu'] at hku
          rw [← hku]
          exact List.mem_cons_self _ _
    · by_cases hsell : t.action == "SELL"
      · have haction : t.action = "SELL" := eq_of_beq hsell
        simp only [dayTradesLoop, hbuy, Bool.false_eq_true, if_false, hsell, if_true,
          dayTradesFrom]
        have hiff : (tkey t ∈ buys) ↔
            (t.action = "SELL" ∧ ∃ u ∈ pre, u.action = "BUY" ∧ tkey u = tkey t) := by
          rw [hb (tkey t), haction]
          simp
        have hrec : dayTradesLoop rest buys = dayTradesFrom (pre ++ [t]) rest := by
          refine ih buys (pre ++ [t]) ?_
          intro k
          rw [hb k]
          constructor
          · rintro ⟨u, hu, hbu, hk⟩
            exact ⟨u, List.mem_append_left _ hu, hbu, hk⟩
          · rintro ⟨u, hu, hbu, hk⟩
            rcases List.mem_append.mp hu with hu' | hu'
            · exact ⟨u, hu', hbu, hk⟩
            · rw [List.mem_singleton.mp hu'] at hbu
              rw [haction] at hbu
              exact absurd hbu (by decide)
        rw [hrec]
        congr 1
        by_cases hmem : tkey t ∈ buys
        · rw [if_pos hmem, if_pos (hiff.mp hmem)]
        · rw [if_neg hmem, if_neg (fun hc => hmem (hiff.mpr hc))]
      · simp only [dayTradesLoop, hbuy, Bool.false_eq_true, if_false, hsell,
          dayTradesFrom]
        rw [if_neg (by
          rintro ⟨hs, -⟩
          exact hsell (show (t.action == "SELL") = true by rw [hs]; rfl))]
        rw [Nat.zero_add]
        refine ih buys (pre ++ [t]) ?_
        intro k
        rw [hb k]
        constructor
        · rintro ⟨u, hu, hbu, hk⟩
          exact ⟨u, List.mem_append_left _ hu, hbu, hk⟩
        · rintro ⟨u, hu, hbu, hk⟩
          rcases List.mem_append.mp hu with hu' | hu'
          · exact ⟨u, hu', hbu, hk⟩
          · rw [List.mem_singleton.mp hu'] at hbu
            exact absurd (show (t.action == "BUY") = true by rw [hbu]; rfl) hbuy

/-- C6 amended: check_pdt_rule rejects exactly when, scanning the
trades of the rolling 7-day window in executed_at order, at least 3 of
the SELL trades are preceded in the scan by a BUY of the same symbol on
the same calendar date.  (Every SELL after such a BUY counts, so one BUY
followed by several SELLs that day counts several day trades, unlike the
distinct-pair reading; a SELL occurring before the day's BUY counts
none.) -/
theorem C6_pdt_amended (trades : List Trade) (now : Int) :
    (check_pdt_rule trades now).1 = false ↔
      3 ≤ dayTradesFrom []
        (sortByExec (trades.filter (fun t => now - 7 * secondsPerDay ≤ t.executed_at))) := by
  have h := dayTradesLoop_eq_from
    (sortByExec (trades.filter (fun t => now - 7 * secondsPerDay ≤ t.executed_at))) [] []
    (by intro k; simp)
  simp only [check_pdt_rule]
  rw [h]
  split_ifs with hge
  · simpa using hge
  · simpa using hge

/-- A run polling one unrecognized message from a sender who is not the
configured counterpart. -/
def pollsA : List (List InMsg) := [[{ rawBody := "hello", sender := "+15550001111" }]]

/-- The same run except the stranger texts an approval token instead. -/
def pollsB : List (List InMsg) := [[{ rawBody := "y", sender := "+15550001111" }]]

/-- C9 counterexample: the two runs agree on every message from the
configured counterpart (there are none), differing only in a stranger's
text, yet one times out to EXPIRED while the other returns approval and
sets the signal APPROVED: the code never checks the sender, so the
claimed insensitivity to non-counterpart messages fails. -/
theorem C9_sender_ignored_cex :
    counterpartView "+19998887777" pollsA = counterpartView "+19998887777" pollsB
    ∧ wait_for_response "PENDING" pollsA = (none, "EXPIRED")
    ∧ wait_for_response "PENDING" pollsB = (some Resp.Y, "APPROVED")
    ∧ wait_for_response "PENDING" pollsA ≠ wait_for_response "PENDING" pollsB := by
  refine ⟨rfl, rfl, rfl, by decide⟩

lemma scanBatch_eq_head (b : List InMsg) :
    scanBatch b = (b.filterMap (fun m => matchResponse (normalizeBody m.rawBody))).head? := by
  induction b with
  | nil => rfl
  | cons m ms ih =>
    cases hm : matchResponse (normalizeBody m.rawBody) with
    | none => simp [scanBatch, List.filterMap_cons, hm, ih]
    | some r => simp [scanBatch, List.filterMap_cons, hm]

/-- C9 amended: the outcome of wait_for_response is a function of the
recognized tokens of the normalized (stripped, upper-cased) message
bodies alone: two runs with the same per-poll recognized-token streams
return the same response and the same signal-status transition.  The
sender of a message is never consulted, so recognized tokens from any
sender count, and only unrecognized text is ignored. -/
theorem C9_token_view_determines (s : String) :
    ∀ P Q : List (List InMsg), tokenView P = tokenView Q →
      wait_for_response s P = wait_for_response s Q := by
  intro P
  induction P with
  | nil =>
    intro Q h
    have hq : Q = [] := by
      cases Q with
      | nil => rfl
      | cons b bs => simp [tokenView] at h
    subst hq; rfl
  | cons b bs ih =>
    intro Q h
    cases Q with
    | nil => simp [tokenView] at h
    | cons c cs =>
      simp only [tokenView, List.map_cons, List.cons.injEq] at h
      obtain ⟨h1, h2⟩ := h
      have hscan : scanBatch b = scanBatch c := by
        rw [scanBatch_eq_head, scanBatch_eq_head, h1]
      simp only [wait_for_response]
      rw [hscan]
      cases hs : scanBatch c with
      | none => exact ih cs (by simpa [tokenView] using h2)
      | some r => cases r <;> rfl

/-- One poll with a lower-case padded approval from one sender. -/
def pollsW1 : List (List InMsg) := [[{ rawBody := " y ", sender := "+10000000001" }]]

/-- One poll with junk text plus a mixed-case approval, other senders. -/
def pollsW2 : List (List InMsg) :=
  [[{ rawBody := "ignore me", sender := "+10000000002" },
    { rawBody := "Yes", sender := "+10000000003" }]]

/-- C9 witness: both runs normalize to the single token stream Y, and
wait_for_response returns the same outcome on them. -/
theorem C9_token_view_determines_witness :
    tokenView pollsW1 = tokenView pollsW2
    ∧ wait_for_response "PENDING" pollsW1 = wait_for_response "PENDING" pollsW2 := by
  have h : tokenView pollsW1 = tokenView pollsW2 := by decide
  exact ⟨h, C9_token_view_determines "PENDING" pollsW1 pollsW2 h⟩

/-- Projection: did execute_signal propagate an exception. -/
def runIsError (e : Except String (ExecResult × ExecState × KV)) : Bool :=
  match e with
  | .error _ => true
  | .ok _ => false

/-- Projection: the result dict of a non-propagating execute_signal. -/
def runResult (e : Except String (ExecResult × ExecState × KV)) : Option ExecResult :=
  match e with
  | .error _ => none
  | .ok (r, _, _) => some r

/-- Projection: the final executor state of a non-propagating run. -/
def runState (e : Except String (ExecResult × ExecState × KV)) : Option ExecState :=
  match e with
  | .error _ => none
  | .ok (_, st, _) => some st

/-- An APPROVED BUY signal for 2 shares of X at 150. -/
def sigA : Signal :=
  { id := 1, symbol := "X", action := "BUY", suggested_price := 150,
    suggested_quantity := 2, status := "APPROVED", trade_id := none }

/-- Executor state around sigA with the fresh 1000-dollar portfolio. -/
def stA : ExecState := { pm := pm0, signal := sigA, audit := [] }

/-- C1 counterexample.  First conjunct: an exception in the step-2 risk
re-check is NOT caught (execute_signal calls pre_trade_check outside any
try/except), contradicting the claim that exceptions anywhere in steps
2-4 are caught.  Remaining conjuncts: when the trade-row insert inside
record_buy raises, the exception is caught and the signal is CANCELLED,
but the cash debit (1000 to 700) and the committed holding survive on
the failure path, contradicting the claimed absence of partial ledger
mutation. -/
theorem C1_exception_handling_cex :
    runIsError (execute_signal cfg0 [] 0 1000 true none stA) = true
    ∧ (runResult (execute_signal cfg0 [] 0 1000 false (some .dbTrade) stA)).map
        (fun r => r.success) = some false
    ∧ (runState (execute_signal cfg0 [] 0 1000 false (some .dbTrade) stA)).map
        (fun s => s.signal.status) = some "CANCELLED"
    ∧ stA.pm.cash_balance = 1000
    ∧ (runState (execute_signal cfg0 [] 0 1000 false (some .dbTrade) stA)).map
        (fun s => s.pm.cash_balance) = some 700
    ∧ (runState (execute_signal cfg0 [] 0 1000 false (some .dbTrade) stA)).map
        (fun s => s.pm.holdings.length) = some 1
    ∧ (runState (execute_signal cfg0 [] 0 1000 false (some .dbTrade) stA)).map
        (fun s => s.pm.trades.length) = some 0 := by
  refine ⟨rfl, ?_, ?_, rfl, ?_, ?_, ?_⟩ <;>
    norm_num [execute_signal, pre_trade_check, is_trading_paused, get_state,
      check_drawdown, check_daily_trades, todayStart, dateOf, check_pdt_rule,
      dayTradesLoop, sortByExec, check_holdings_limit, check_position_size,
      TradingConfig.max_position_value, execute_paper_trade, record_buy_run,
      update_or_create_holding, get_holding, update_signal_status, fault_text,
      runResult, runState, cfg0, stA, sigA, pm0, SignalStatus.value] <;> rfl

/-- Any fault inside the paper-trade try block is caught: the result is
a failure, the signal ends CANCELLED, and the last audit entry carries
the exception text as the note. -/
lemma execute_paper_trade_fault (cfg : TradingConfig) (now : Int) (f : ExecFault)
    (st : ExecState) (res0 : ExecResult) :
    (execute_paper_trade cfg now (some f) st res0).1.success = false
    ∧ (execute_paper_trade cfg now (some f) st res0).2.signal.status = "CANCELLED"
    ∧ (execute_paper_trade cfg now (some f) st res0).2.audit.getLast?
        = some ("Signal status: CANCELLED - " ++ fault_text f) := by
  by_cases hact : st.signal.action == "BUY" <;>
    cases f <;>
      simp [execute_paper_trade, record_buy_run, record_sell_run, update_signal_status,
        hact, fault_text, SignalStatus.value, List.getLast?_concat]

/-- C1 amended: for an APPROVED signal that passes the risk re-check,
an exception at any point inside the paper execution and ledger update
(steps 3-4) is caught: execute_signal still returns (does not throw), the
result is a failure, and the signal is transitioned to CANCELLED with
the exception text as the audit note.  However, an exception raised
during the step-2 risk re-check itself propagates to the caller, and
ledger mutations committed before the failing operation (the in-memory
cash debit and any committed holding write) are not rolled back. -/
theorem C1_exception_handling_amended (cfg : TradingConfig) (kv : KV) (now : Int)
    (pv : ℚ) (st : ExecState) (f : ExecFault)
    (happr : st.signal.status = "APPROVED")
    (hrisk : (pre_trade_check cfg kv st.pm.trades now st.signal.action
        st.signal.suggested_quantity st.signal.suggested_price st.pm.cash_balance
        (st.pm.holdings.length : Int) pv pv).1 = true) :
    execute_signal cfg kv now pv true (some f) st = .error "risk check raised"
    ∧ (runResult (execute_signal cfg kv now pv false (some f) st)).map
        (fun r => r.success) = some false
    ∧ (runState (execute_signal cfg kv now pv false (some f) st)).map
        (fun s => s.signal.status) = some "CANCELLED"
    ∧ (runState (execute_signal cfg kv now pv false (some f) st)).map
        (fun s => s.audit.getLast?)
        = some (some ("Signal status: CANCELLED - " ++ fault_text f)) := by
  have hne : ¬(st.signal.status ≠ "APPROVED") := fun hc => hc happr
  obtain ⟨h1, h2, h3⟩ := execute_paper_trade_fault cfg now f st
    { success := false, message := "", fill_price := none, trade_id := none }
  refine ⟨?_, ?_, ?_, ?_⟩ <;>
    simp [execute_signal, hne, hrisk, runResult, runState, h1, h2, h3]

/-- C1 witness: the amended theorem at the concrete APPROVED BUY signal
with a fault at the trade-row insert. -/
theorem C1_exception_handling_amended_witness :
    execute_signal cfg0 [] 0 1000 true (some ExecFault.dbTrade) stA
        = .error "risk check raised"
    ∧ (runResult (execute_signal cfg0 [] 0 1000 false (some ExecFault.dbTrade) stA)).map
        (fun r => r.success) = some false
    ∧ (runState (execute_signal cfg0 [] 0 1000 false (some ExecFault.dbTrade) stA)).map
        (fun s => s.signal.status) = some "CANCELLED"
    ∧ (runState (execute_signal cfg0 [] 0 1000 false (some ExecFault.dbTrade) stA)).map
        (fun s => s.audit.getLast?)
        = some (some ("Signal status: CANCELLED - " ++ fault_text ExecFault.dbTrade)) :=
  C1_exception_handling_amended cfg0 [] 0 1000 stA ExecFault.dbTrade rfl
    (by norm_num [pre_trade_check, is_trading_paused, get_state, check_drawdown,
      check_daily_trades, todayStart, dateOf, check_pdt_rule, dayTradesLoop,
      sortByExec, check_holdings_limit, check_position_size,
      TradingConfig.max_position_value, cfg0, stA, sigA, pm0])
